import Mathlib

/-!
Shallow embedding of the stock-watchlist chat bot (`src/main.py`).

Modelling conventions:
* Python strings are Lean `String`s; the Python string methods used by the
  code (`strip`, `startswith`, `endswith`, `replace`, `isdigit`) are embedded
  below as executable functions on the underlying character list.
  (`strip` removes the ASCII whitespace characters, which covers all inputs
  relevant here; ticker codes and command keywords contain none.)
* The ticker file `tickers.txt` is modelled by its list of lines
  (`List String`); writing `"\n".join(entries)` and reading the file back
  line by line is the identity on that list for newline-free entries, which
  every entry written by the program is.
* Calendar dates are day numbers (`Int`); `date -= timedelta(days=1)` is
  subtraction by one.  The current date in the `Asia/Taipei` timezone is an
  explicit parameter `today`.
* The FinMind HTTP provider is a parameter: one function per dataset used by
  the code (`TaiwanStockInfo`, `TaiwanStockPrice`).  A Python exception
  raised by `requests.get` / `.json()` is an `Except.error`; Python code
  without `try/except` is monadic bind, which propagates the error.
* A provider price record is a JSON object; the program reads only its
  `close` and `date` values and formats them into the reply, so scalar
  values are carried as their rendered text.  The `open` value is kept in
  the model because the specification talks about it.
-/

/-- Python `str.strip()` on a character list: drop whitespace from the front,
then from the back (`List.rdropWhile`). -/
def stripChars (l : List Char) : List Char :=
  List.rdropWhile Char.isWhitespace (l.dropWhile Char.isWhitespace)

/-- Python `str.strip()`. -/
def pyStrip (s : String) : String :=
  ⟨stripChars s.data⟩

/-- Python `str.startswith(k)`. -/
def pyStartsWith (s k : String) : Bool :=
  List.isPrefixOf k.data s.data

/-- Python `str.endswith(k)`. -/
def pyEndsWith (s k : String) : Bool :=
  List.isSuffixOf k.data s.data

/-- Fuel-indexed worker for Python `str.replace`: at each position, if the
pattern matches there, emit the replacement and skip the pattern, else copy
one character.  The fuel (initially the length of the string) makes the
recursion structural; it never runs out because every step consumes at least
one character. -/
def replaceAux : Nat → List Char → List Char → List Char → List Char
  | 0, l, _, _ => l
  | _ + 1, [], _, _ => []
  | n + 1, c :: rest, pat, rep =>
    if List.isPrefixOf pat (c :: rest) && !pat.isEmpty then
      rep ++ replaceAux n (rest.drop (pat.length - 1)) pat rep
    else
      c :: replaceAux n rest pat rep

/-- Python `s.replace(pat, rep)` (all non-overlapping occurrences, left to
right; the program only ever uses non-empty patterns). -/
def pyReplace (s pat rep : String) : String :=
  ⟨replaceAux s.data.length s.data pat.data rep.data⟩

/-- Python `str.isdigit()` (ASCII digits; all inputs relevant here are
ASCII). -/
def pyIsDigit (s : String) : Bool :=
  !s.data.isEmpty && s.data.all Char.isDigit

/-- One record of the `TaiwanStockInfo` dataset, as read by the program. -/
structure InfoRecord where
  stock_name : String
deriving DecidableEq, Repr

/-- One record of the `TaiwanStockPrice` dataset.  The program reads only
`close` and `date`; `openPrice` models the record's `open` value, which the
program never reads. -/
structure PriceRecord where
  date : String
  openPrice : String
  close : String
deriving DecidableEq, Repr

/-- The FinMind market-data provider, one function per dataset the program
queries.  `ε` is the type of transport/parse exceptions
(`requests` errors, `.json()` failures). -/
structure Provider (ε : Type) where
  info : String → Except ε (List InfoRecord)
  price : String → Int → Except ε (List PriceRecord)

/-- `load_tickers` (src/main.py:37-39): read the ticker file, strip each
line, keep the non-empty ones. -/
def load_tickers (fileLines : List String) : List String :=
  (fileLines.map pyStrip).filter (· ≠ "")

/-- Code-point lexicographic comparison of character lists: the order Python
uses to compare strings (and hence the order of `sorted`). -/
def lexLe : List Char → List Char → Bool
  | [], _ => true
  | _ :: _, [] => false
  | a :: as, b :: bs => if a = b then lexLe as bs else decide (a.toNat < b.toNat)

/-- Python's `≤` on strings (code-point lexicographic). -/
def pyLe (s t : String) : Prop :=
  lexLe s.data t.data = true

instance : DecidableRel pyLe := fun s t =>
  inferInstanceAs (Decidable (lexLe s.data t.data = true))

/-- `save_tickers` (src/main.py:41-43): write `sorted(set(tickers))`, one
entry per line. -/
def save_tickers (tickers : List String) : List String :=
  List.insertionSort pyLe tickers.dedup

/-- The seed content of `tickers.txt` written at startup when the file does
not exist (src/main.py:33-35). -/
def initialTickers : List String :=
  ["0050", "0056", "00878", "00919", "2330", "2317", "2382", "2010"]

/-- The `.TW`-suffix normalization performed at the top of both
`get_stock_name` and `get_stock_info` (src/main.py:47-48 and 59-60). -/
def twCode (stock_code : String) : String :=
  if pyEndsWith stock_code ".TW" then stock_code else stock_code ++ ".TW"

/-- `get_stock_name` (src/main.py:46-55): append `.TW` when missing, query
the `TaiwanStockInfo` dataset, return the first record's `stock_name` (or
`""` when there is no record). -/
def get_stock_name {ε : Type} (P : Provider ε) (stock_code : String) :
    Except ε String := do
  let code := twCode stock_code
  let data ← P.info code
  match data with
  | r :: _ => pure r.stock_name
  | [] => pure ""

/-- The reply text built on a successful quote (src/main.py:78). -/
def quoteLine (stock_code name close date : String) : String :=
  pyReplace stock_code ".TW" "" ++ " " ++ name ++ "\n收盤價：" ++ close ++
    "（" ++ date ++ "）"

/-- The reply text when the retry window is exhausted (src/main.py:81). -/
def notFoundLine (stock_code : String) : String :=
  pyReplace stock_code ".TW" "" ++ " 無法取得資料（可能代碼錯誤或近期無交易）"

/-- The `for _ in range(5)` walk-back loop of `get_stock_info`
(src/main.py:66-79): query `TaiwanStockPrice` for the current candidate
date; a non-empty record list ends the loop with a quote built from the
last record, an empty one moves to the previous calendar day. -/
def stockInfoLoop {ε : Type} (P : Provider ε) (code : String) :
    Nat → Int → Except ε String
  | 0, _ => pure (notFoundLine code)
  | n + 1, date => do
    let data ← P.price code date
    match data.getLast? with
    | some latest => do
      let name ← get_stock_name P code
      pure (quoteLine code name latest.close latest.date)
    | none => stockInfoLoop P code n (date - 1)

/-- `get_stock_info` (src/main.py:58-81): append `.TW` when missing, then
walk back at most 5 calendar days from `today` (the current date in the
`Asia/Taipei` timezone). -/
def get_stock_info {ε : Type} (P : Provider ε) (today : Int)
    (stock_code : String) : Except ε String :=
  stockInfoLoop P (twCode stock_code) 5 today

/-- The list comprehension of `get_stock_prices` (src/main.py:86): resolve
each ticker in order; an exception raised by any resolution aborts the
whole comprehension. -/
def mapInfo {ε : Type} (P : Provider ε) (today : Int) :
    List String → Except ε (List String)
  | [] => pure []
  | c :: cs => do
    let r ← get_stock_info P today c
    let rs ← mapInfo P today cs
    pure (r :: rs)

/-- `get_stock_prices` (src/main.py:84-87): load the watchlist, resolve
every ticker in list order, join the blocks with a blank line. -/
def get_stock_prices {ε : Type} (P : Provider ε) (today : Int)
    (fileLines : List String) : Except ε String := do
  let results ← mapInfo P today (load_tickers fileLines)
  pure (String.intercalate "\n\n" results)

/-- The reply of the `清單` (list) command (src/main.py:138). -/
def listReply (tickers : List String) : String :=
  if tickers.isEmpty then "目前追蹤清單是空的。"
  else "📋 目前追蹤清單：\n" ++ String.intercalate "\n" tickers

/-- The fixed usage text of the fall-through help branch
(src/main.py:160). -/
def helpText : String :=
  "可用指令：\n📈 追蹤 [代碼]\n🗑️ 刪除 [代碼]\n📋 清單\n💰 股價 [代碼]"

/-- `handle_message` (src/main.py:132-162): strip the inbound text, load the
watchlist, dispatch on the recognized keywords, and return the (possibly
updated) ticker-file state together with the reply text.  An exception
raised by a provider call is not caught anywhere on this path and
propagates (`Except.error`). -/
def handle_message {ε : Type} (P : Provider ε) (today : Int)
    (st : List String) (msgText : String) :
    Except ε (List String × String) :=
  let text := pyStrip msgText
  let tickers := load_tickers st
  if text = "清單" then
    pure (st, listReply tickers)
  else if pyStartsWith text "追蹤" then
    let code := pyStrip (pyReplace text "追蹤" "")
    if code ≠ "" then
      pure (save_tickers (tickers ++ [code]), "✅ 已新增 " ++ code ++ " 到追蹤清單")
    else
      pure (st, "請輸入格式：追蹤 [代碼]")
  else if pyStartsWith text "刪除" then
    let code := pyStrip (pyReplace text "刪除" "")
    if code ∈ tickers then
      pure (save_tickers (tickers.erase code), "🗑️ 已刪除 " ++ code ++ " 從追蹤清單")
    else
      pure (st, code ++ " 不在清單中")
  else if text = "股價" then do
    let r ← get_stock_prices P today st
    pure (st, r)
  else if pyIsDigit text then do
    let r ← get_stock_info P today text
    pure (st, r)
  else
    pure (st, helpText)

/-- The store-level `add` operation performed by the `追蹤` (track) branch
(src/main.py:142-143): append the code to the loaded list and save. -/
def addTicker (st : List String) (t : String) : List String :=
  save_tickers (load_tickers st ++ [t])

/-- Repeated application of `addTicker` with the same code, `n` times. -/
def addIter (st : List String) (t : String) : Nat → List String
  | 0 => st
  | n + 1 => addTicker (addIter st t n) t

/-! ### Concrete providers used to evaluate the definitions -/

/-- A provider with no data at all (every call succeeds with zero records). -/
def provEmptyU : Provider Unit :=
  ⟨fun _ => .ok [], fun _ _ => .ok []⟩

/-- A provider whose every call raises a transport exception. -/
def provErr : Provider String :=
  ⟨fun _ => .error "ConnectionError", fun _ _ => .error "ConnectionError"⟩

/-- A sample trading record (open 100, close 105). -/
def recOpen100 : PriceRecord :=
  ⟨"2025-10-09", "100", "105"⟩

/-- The same trading record except that its `open` value is 0. -/
def recOpen0 : PriceRecord :=
  ⟨"2025-10-09", "0", "105"⟩

/-- A provider with a record for ticker `2330.TW` on day `-3` only. -/
def provD3 : Provider Unit :=
  ⟨fun _ => .ok [⟨"台積電"⟩],
   fun c d => if c = "2330.TW" ∧ d = -3 then .ok [recOpen100] else .ok []⟩

/-- A provider with a record (open 100) for `2330.TW` on day `0` only. -/
def provOpen100 : Provider Unit :=
  ⟨fun _ => .ok [⟨"台積電"⟩],
   fun c d => if c = "2330.TW" ∧ d = 0 then .ok [recOpen100] else .ok []⟩

/-- Like `provOpen100` but the record's `open` value is 0. -/
def provOpen0 : Provider Unit :=
  ⟨fun _ => .ok [⟨"台積電"⟩],
   fun c d => if c = "2330.TW" ∧ d = 0 then .ok [recOpen0] else .ok []⟩

/-- A provider holding a record for the malformed ticker code `abc!.TW` on
day `0`. -/
def provMal : Provider Unit :=
  ⟨fun _ => .ok [], fun c d => if c = "abc!.TW" ∧ d = 0 then .ok [recOpen100] else .ok []⟩

/-- A provider that never raises, given by plain functions per dataset
(`Empty` is the exception type: no exception can occur). -/
def pureProv (f : String → Int → List PriceRecord) (g : String → List InfoRecord) :
    Provider Empty :=
  ⟨fun c => .ok (g c), fun c d => .ok (f c d)⟩

/-- Extract the value of an exception-free computation. -/
def ofPure {α : Type} : Except Empty α → α
  | .ok a => a
  | .error e => e.elim

/-- Price data for the batch-quote evaluation: a record for `2330.TW` on
day `0`, nothing anywhere else. -/
def sampleF : String → Int → List PriceRecord :=
  fun c d => if c = "2330.TW" ∧ d = 0 then [recOpen100] else []

/-- Name data for the batch-quote evaluation. -/
def sampleG : String → List InfoRecord :=
  fun _ => [⟨"台積電"⟩]

/-! ### Order properties of the Python string order -/

theorem string_data_inj {s t : String} (h : s.data = t.data) : s = t := by
  cases s; cases t; exact congrArg String.mk h

theorem charToNat_inj {a b : Char} (h : a.toNat = b.toNat) : a = b := by
  rw [← Char.ofNat_toNat a, ← Char.ofNat_toNat b, h]

theorem lexLe_refl : ∀ a, lexLe a a = true
  | [] => rfl
  | _ :: as => by simp [lexLe, lexLe_refl as]

theorem lexLe_total : ∀ a b, lexLe a b = true ∨ lexLe b a = true
  | [], _ => Or.inl rfl
  | _ :: _, [] => Or.inr rfl
  | a :: as, b :: bs => by
    by_cases hab : a = b
    · subst hab
      simpa [lexLe] using lexLe_total as bs
    · have hba : b ≠ a := fun h => hab h.symm
      have hne : a.toNat ≠ b.toNat := fun h => hab (charToNat_inj h)
      rcases Nat.lt_or_ge a.toNat b.toNat with h | h
      · exact Or.inl (by simp [lexLe, hab, h])
      · exact Or.inr (by simp [lexLe, hba]; omega)

theorem lexLe_trans : ∀ a b c, lexLe a b = true → lexLe b c = true → lexLe a c = true
  | [], _, _, _, _ => rfl
  | _ :: _, [], _, h, _ => by simp [lexLe] at h
  | _ :: _, _ :: _, [], _, h => by simp [lexLe] at h
  | a :: as, b :: bs, c :: cs, hab, hbc => by
    by_cases h1 : a = b
    · subst h1
      by_cases h2 : a = c
      · subst h2
        simp only [lexLe, if_pos rfl] at hab hbc ⊢
        exact lexLe_trans as bs cs hab hbc
      · simp only [lexLe, if_pos rfl] at hab
        simpa [lexLe, h2] using hbc
    · by_cases h2 : b = c
      · subst h2
        simpa [lexLe, h1] using hab
      · simp only [lexLe, if_neg h1, decide_eq_true_eq] at hab
        simp only [lexLe, if_neg h2, decide_eq_true_eq] at hbc
        have h3 : a ≠ c := by
          intro h
          subst h
          omega
        simp only [lexLe, if_neg h3, decide_eq_true_eq]
        omega

theorem lexLe_antisymm : ∀ a b, lexLe a b = true → lexLe b a = true → a = b
  | [], [], _, _ => rfl
  | [], _ :: _, _, h => by simp [lexLe] at h
  | _ :: _, [], h, _ => by simp [lexLe] at h
  | a :: as, b :: bs, hab, hba => by
    by_cases h1 : a = b
    · subst h1
      simp only [lexLe, if_pos rfl] at hab hba
      rw [lexLe_antisymm as bs hab hba]
    · have h2 : b ≠ a := fun h => h1 h.symm
      simp only [lexLe, if_neg h1, decide_eq_true_eq] at hab
      simp only [lexLe, if_neg h2, decide_eq_true_eq] at hba
      omega

instance : IsRefl String pyLe := ⟨fun s => lexLe_refl s.data⟩

instance : IsTotal String pyLe := ⟨fun s t => lexLe_total s.data t.data⟩

instance : IsTrans String pyLe :=
  ⟨fun s t u h1 h2 => lexLe_trans s.data t.data u.data h1 h2⟩

instance : IsAntisymm String pyLe :=
  ⟨fun s t h1 h2 => string_data_inj (lexLe_antisymm s.data t.data h1 h2)⟩

/-! ### Properties of strip, load and save -/

theorem stripChars_idem (l : List Char) : stripChars (stripChars l) = stripChars l := by
  unfold stripChars
  have hpre := List.rdropWhile_prefix Char.isWhitespace (l.dropWhile Char.isWhitespace)
  have hdw : List.dropWhile Char.isWhitespace
      (List.rdropWhile Char.isWhitespace (l.dropWhile Char.isWhitespace)) =
      List.rdropWhile Char.isWhitespace (l.dropWhile Char.isWhitespace) := by
    rw [List.dropWhile_eq_self_iff]
    intro hl
    have hlen : 0 < (l.dropWhile Char.isWhitespace).length :=
      lt_of_lt_of_le hl hpre.length_le
    have h0 := List.dropWhile_get_zero_not Char.isWhitespace l hlen
    simp only [List.get_eq_getElem] at h0 ⊢
    rwa [List.IsPrefix.getElem hpre hl]
  rw [hdw, List.rdropWhile_idempotent]

theorem pyStrip_idem (s : String) : pyStrip (pyStrip s) = pyStrip s :=
  congrArg String.mk (stripChars_idem s.data)

/-- An entry is "good" when it is strip-fixed and non-empty: every entry the
program ever stores or loads is good. -/
def goodEntry (x : String) : Prop :=
  pyStrip x = x ∧ x ≠ ""

theorem load_tickers_good {st : List String} {x : String}
    (hx : x ∈ load_tickers st) : goodEntry x := by
  unfold load_tickers at hx
  rw [List.mem_filter] at hx
  obtain ⟨hmap, hne⟩ := hx
  rw [List.mem_map] at hmap
  obtain ⟨y, _, rfl⟩ := hmap
  exact ⟨pyStrip_idem y, by simpa using hne⟩

theorem load_tickers_eq_self {l : List String} (h : ∀ x ∈ l, goodEntry x) :
    load_tickers l = l := by
  unfold load_tickers
  rw [List.map_congr_left (fun x hx => (h x hx).1)]
  simp only [List.map_id_fun, id_eq, List.map_id']
  rw [List.filter_eq_self]
  intro a ha
  simpa using (h a ha).2

theorem mem_save_tickers {ts : List String} {a : String} :
    a ∈ save_tickers ts ↔ a ∈ ts := by
  unfold save_tickers
  rw [List.mem_insertionSort, List.mem_dedup]

theorem save_tickers_nodup (ts : List String) : (save_tickers ts).Nodup :=
  (List.perm_insertionSort pyLe ts.dedup).nodup_iff.mpr (List.nodup_dedup ts)

theorem save_tickers_sorted (ts : List String) : List.Sorted pyLe (save_tickers ts) :=
  List.sorted_insertionSort pyLe ts.dedup

theorem save_tickers_good {ts : List String} (h : ∀ x ∈ ts, goodEntry x) :
    ∀ x ∈ save_tickers ts, goodEntry x :=
  fun x hx => h x (mem_save_tickers.mp hx)

/-- `sorted(set(·))` is canonical: two lists with the same members save to
the same file. -/
theorem save_tickers_canonical {ts us : List String}
    (h : ∀ a, a ∈ ts ↔ a ∈ us) : save_tickers ts = save_tickers us := by
  apply List.eq_of_perm_of_sorted _ (save_tickers_sorted ts) (save_tickers_sorted us)
  rw [List.perm_ext_iff_of_nodup (save_tickers_nodup ts) (save_tickers_nodup us)]
  intro a
  rw [mem_save_tickers, mem_save_tickers]
  exact h a

theorem load_save_roundtrip {ts : List String} (h : ∀ x ∈ ts, goodEntry x) :
    load_tickers (save_tickers ts) = save_tickers ts :=
  load_tickers_eq_self (save_tickers_good h)

/-! ### Keyword and digit dispatch facts -/

theorem pyStartsWith_head {text k : String} {c : Char} {cs : List Char}
    (hk : k.data = c :: cs) (h : pyStartsWith text k = true) :
    ∃ t, text.data = c :: t := by
  unfold pyStartsWith at h
  rw [hk] at h
  cases htext : text.data with
  | nil => rw [htext] at h; simp [List.isPrefixOf] at h
  | cons d t =>
    rw [htext] at h
    simp only [List.isPrefixOf, Bool.and_eq_true, beq_iff_eq] at h
    exact ⟨t, by rw [h.1]⟩

theorem pyIsDigit_head {text : String} (h : pyIsDigit text = true) :
    ∃ c t, text.data = c :: t ∧ c.isDigit = true := by
  unfold pyIsDigit at h
  cases htext : text.data with
  | nil => rw [htext] at h; simp at h
  | cons c t =>
    rw [htext] at h
    simp only [List.isEmpty_cons, Bool.not_false, List.all_cons, Bool.true_and,
      Bool.and_eq_true] at h
    exact ⟨c, t, rfl, h.1⟩

/-- A string whose first character differs from the first character of `s`
is neither equal to `s` nor has `s` as a prefix. -/
theorem head_ne_cases {text s : String} {c d : Char} {t ds : List Char}
    (h1 : text.data = c :: t) (hs : s.data = d :: ds) (hne : c ≠ d) :
    text ≠ s ∧ pyStartsWith text s = false := by
  constructor
  · intro he
    rw [he, hs] at h1
    exact hne (List.head_eq_of_cons_eq h1.symm)
  · unfold pyStartsWith
    rw [hs, h1]
    simp only [List.isPrefixOf, Bool.and_eq_false_iff, beq_eq_false_iff_ne, ne_eq]
    exact Or.inl (fun he => hne he.symm)

theorem digit_head_ne {text s : String} (h : pyIsDigit text = true)
    {d : Char} {ds : List Char} (hs : s.data = d :: ds) (hd : d.isDigit = false) :
    text ≠ s ∧ pyStartsWith text s = false := by
  obtain ⟨c, t, hct, hcd⟩ := pyIsDigit_head h
  refine head_ne_cases hct hs (fun he => ?_)
  rw [he, hd] at hcd
  exact Bool.noConfusion hcd

/-! ### The walk-back loop -/

theorem ok_bind {ε α β : Type} (a : α) (f : α → Except ε β) :
    (Except.ok a >>= f) = f a := rfl

theorem error_bind {ε α β : Type} (e : ε) (f : α → Except ε β) :
    ((Except.error e : Except ε α) >>= f) = Except.error e := rfl

theorem stockInfoLoop_skip {ε : Type} (P : Provider ε) (c : String) :
    ∀ (k n : Nat) (date : Int), k < n →
      (∀ i : Nat, i < k → P.price c (date - i) = .ok []) →
      stockInfoLoop P c n date = stockInfoLoop P c (n - k) (date - k)
  | 0, n, date, _, _ => by simp
  | k + 1, n, date, hk, hEmpty => by
    obtain ⟨m, rfl⟩ : ∃ m, n = m + 1 := ⟨n - 1, by omega⟩
    have h0 : P.price c date = .ok [] := by
      have := hEmpty 0 (Nat.succ_pos k)
      simpa using this
    have hstep : stockInfoLoop P c (m + 1) date = stockInfoLoop P c m (date - 1) := by
      simp only [stockInfoLoop, h0, ok_bind, List.getLast?_nil]
    rw [hstep]
    have hrest : ∀ i : Nat, i < k → P.price c (date - 1 - i) = .ok [] := by
      intro i hi
      have := hEmpty (i + 1) (by omega)
      have harith : date - (↑(i + 1) : Int) = date - 1 - i := by
        push_cast
        ring
      rwa [harith] at this
    rw [stockInfoLoop_skip P c k m (date - 1) (by omega) hrest]
    congr 1
    · omega
    · push_cast
      ring

theorem stockInfoLoop_exhaust {ε : Type} (P : Provider ε) (c : String) :
    ∀ (n : Nat) (date : Int),
      (∀ i : Nat, i < n → P.price c (date - i) = .ok []) →
      stockInfoLoop P c n date = .ok (notFoundLine c)
  | 0, _, _ => rfl
  | n + 1, date, hEmpty => by
    have h0 : P.price c date = .ok [] := by simpa using hEmpty 0 (Nat.succ_pos n)
    have hstep : stockInfoLoop P c (n + 1) date = stockInfoLoop P c n (date - 1) := by
      simp only [stockInfoLoop, h0, ok_bind, List.getLast?_nil]
    rw [hstep]
    apply stockInfoLoop_exhaust
    intro i hi
    have := hEmpty (i + 1) (by omega)
    have harith : date - (↑(i + 1) : Int) = date - 1 - i := by
      push_cast
      ring
    rwa [harith] at this

theorem stockInfoLoop_hit {ε : Type} (P : Provider ε) (c : String) (n : Nat)
    (date : Int) (hn : 0 < n) {rs : List PriceRecord} {r : PriceRecord}
    {nm : String} (hrec : P.price c date = .ok rs) (hlast : rs.getLast? = some r)
    (hname : get_stock_name P c = .ok nm) :
    stockInfoLoop P c n date = .ok (quoteLine c nm r.close r.date) := by
  obtain ⟨m, rfl⟩ : ∃ m, n = m + 1 := ⟨n - 1, by omega⟩
  simp only [stockInfoLoop, hrec, ok_bind, hlast, hname]
  rfl

/-! ### Claim C1 -/

/-- C1: quote resolution starts at the current Asia/Taipei date (`today`) and
asks the provider for that date; each day with no trading record moves one
calendar day back, for at most 5 attempts.  The first day in the window with
a record produces the returned quote (in particular a record on day D−3
behind three empty days is the one returned, as the witness instantiates),
and a window with no record at all yields the not-found outcome. -/
theorem quote_walkback_first_hit {ε : Type} (P : Provider ε) (today : Int)
    (c : String) :
    (∀ k : Nat, k < 5 →
      (∀ i : Nat, i < k → P.price (twCode c) (today - i) = .ok []) →
      ∀ (rs : List PriceRecord) (r : PriceRecord) (nm : String),
        P.price (twCode c) (today - k) = .ok rs → rs.getLast? = some r →
        get_stock_name P (twCode c) = .ok nm →
        get_stock_info P today c = .ok (quoteLine (twCode c) nm r.close r.date))
    ∧ ((∀ i : Nat, i < 5 → P.price (twCode c) (today - i) = .ok []) →
        get_stock_info P today c = .ok (notFoundLine (twCode c))) := by
  constructor
  · intro k hk hEmpty rs r nm hrec hlast hname
    unfold get_stock_info
    rw [stockInfoLoop_skip P (twCode c) k 5 today hk hEmpty]
    exact stockInfoLoop_hit P (twCode c) (5 - k) (today - k) (by omega) hrec hlast hname
  · intro hEmpty
    unfold get_stock_info
    exact stockInfoLoop_exhaust P (twCode c) 5 today hEmpty

/-- Witness for C1: with no record on days 0, −1, −2 and a record on day −3,
resolution returns the −3 record; with no record at all it returns the
not-found line. -/
theorem quote_walkback_first_hit_witness :
    get_stock_info provD3 0 "2330" = .ok "2330 台積電\n收盤價：105（2025-10-09）"
    ∧ get_stock_info provEmptyU 0 "2330" = .ok (notFoundLine "2330.TW") := by
  constructor
  · have h := (quote_walkback_first_hit provD3 0 "2330").1 3 (by omega)
      (by intro i hi; interval_cases i <;> rfl) [recOpen100] recOpen100 "台積電"
      (by rfl) (by rfl) (by rfl)
    exact h.trans (by rfl)
  · exact (quote_walkback_first_hit provEmptyU 0 "2330").2
      (by intro i hi; interval_cases i <;> rfl)

/-! ### Claim C2 -/

theorem count_addTicker {st : List String} {t : String} (hgood : goodEntry t) :
    List.count t (load_tickers (addTicker st t)) = 1 := by
  unfold addTicker
  have hall : ∀ x ∈ load_tickers st ++ [t], goodEntry x := by
    intro x hx
    rcases List.mem_append.mp hx with h | h
    · exact load_tickers_good h
    · rw [List.mem_singleton.mp h]; exact hgood
  rw [load_save_roundtrip hall]
  unfold save_tickers
  rw [(List.perm_insertionSort pyLe (load_tickers st ++ [t]).dedup).count_eq]
  rw [List.count_dedup]
  simp

/-- C2: adding a (valid, i.e. strip-fixed and non-empty) ticker any positive
number of times leaves exactly one copy in the listed watchlist, and any add
after the first leaves the stored file unchanged. -/
theorem add_idempotent_once {st : List String} {t : String}
    (hgood : goodEntry t) :
    (∀ n : Nat, List.count t (load_tickers (addIter st t (n + 1))) = 1)
    ∧ addTicker (addTicker st t) t = addTicker st t := by
  constructor
  · intro n
    exact count_addTicker hgood
  · unfold addTicker
    have hall : ∀ x ∈ load_tickers st ++ [t], goodEntry x := by
      intro x hx
      rcases List.mem_append.mp hx with h | h
      · exact load_tickers_good h
      · rw [List.mem_singleton.mp h]; exact hgood
    rw [load_save_roundtrip hall]
    apply save_tickers_canonical
    intro a
    constructor
    · intro ha
      rcases List.mem_append.mp ha with h | h
      · exact mem_save_tickers.mp h
      · rw [List.mem_singleton.mp h]
        exact List.mem_append.mpr (Or.inr (List.mem_singleton.mpr rfl))
    · intro ha
      exact List.mem_append.mpr (Or.inl (mem_save_tickers.mpr ha))

/-- Witness for C2 at a concrete state and ticker. -/
theorem add_idempotent_once_witness :
    List.count "2330" (load_tickers (addIter ["0050"] "2330" 1)) = 1
    ∧ addTicker (addTicker ["0050"] "2330") "2330" = addTicker ["0050"] "2330" := by
  have h := @add_idempotent_once ["0050"] "2330" ⟨by rfl, by decide⟩
  exact ⟨h.1 0, h.2⟩

/-! ### Claim C3 -/

/-- Counterexample to C3: two providers whose day-0 records agree on `close`
and `date` but differ in `open` (100 versus 0) produce byte-for-byte
identical resolved quotes.  Had the quote carried
`changePct = (close − open) / open × 100` (5 % versus 0) or a direction
derived from `close − open`, the outputs would differ. -/
theorem quote_no_change_fields_counterexample :
    get_stock_info provOpen100 0 "2330" = get_stock_info provOpen0 0 "2330"
    ∧ recOpen100.close = recOpen0.close
    ∧ recOpen100.date = recOpen0.date
    ∧ recOpen100.openPrice ≠ recOpen0.openPrice := by
  refine ⟨rfl, rfl, rfl, ?_⟩
  decide

/-- C3 as amended: a resolved quote consists solely of the ticker line
(code and provider name) and the close/date line taken verbatim from the
resolved record; no `changeAbs`, `changePct` or direction field is computed
at resolution time. -/
theorem quote_output_only_close_date {ε : Type} (P : Provider ε)
    (today : Int) (c : String) (rs : List PriceRecord) (r : PriceRecord)
    (nm : String) (hrec : P.price (twCode c) today = .ok rs)
    (hlast : rs.getLast? = some r)
    (hname : get_stock_name P (twCode c) = .ok nm) :
    get_stock_info P today c = .ok (quoteLine (twCode c) nm r.close r.date) := by
  unfold get_stock_info
  exact stockInfoLoop_hit P (twCode c) 5 today (by omega) hrec hlast hname

/-- Witness for the amended C3. -/
theorem quote_output_only_close_date_witness :
    get_stock_info provOpen100 0 "2330" = .ok "2330 台積電\n收盤價：105（2025-10-09）" := by
  have h := quote_output_only_close_date provOpen100 0 "2330" [recOpen100]
    recOpen100 "台積電" (by rfl) (by rfl) (by rfl)
  exact h.trans (by rfl)

/-! ### Claim C4 -/

/-- Counterexample to C4: with a provider whose calls raise a transport
exception, the bare-ticker quote command makes the message handler itself
raise — the exception is not resolved to a status line at the dispatcher
boundary. -/
theorem transport_error_escapes_counterexample :
    handle_message provErr 0 ["2330"] "2330" = .error "ConnectionError"
    ∧ handle_message provErr 0 ["2330"] "股價" = .error "ConnectionError" := by
  exact ⟨rfl, rfl⟩

/-- C4 as amended: commands that make no provider call (list, track,
untrack, help) always produce a reply, but a provider exception during a
bare-ticker quote command propagates uncaught past the message handler. -/
theorem handler_error_propagation :
    (∀ (ε : Type) (P : Provider ε) (today : Int) (st : List String)
       (msg : String), pyStrip msg ≠ "股價" → pyIsDigit (pyStrip msg) = false →
       ∃ v, handle_message P today st msg = .ok v)
    ∧ (∀ (ε : Type) (P : Provider ε) (e : ε) (today : Int) (st : List String)
       (msg : String), pyIsDigit (pyStrip msg) = true →
       P.price (twCode (pyStrip msg)) today = .error e →
       handle_message P today st msg = .error e) := by
  constructor
  · intro ε P today st msg hprice hdig
    unfold handle_message
    dsimp only
    repeat' split
    all_goals first
      | exact ⟨_, rfl⟩
      | (rename_i h; exact absurd h hprice)
      | (rename_i h; rw [h] at hdig; exact Bool.noConfusion hdig)
  · intro ε P e today st msg hdig herr
    have h1 := digit_head_ne hdig (s := "清單") rfl rfl
    have h2 := digit_head_ne hdig (s := "追蹤") rfl rfl
    have h3 := digit_head_ne hdig (s := "刪除") rfl rfl
    have h4 := digit_head_ne hdig (s := "股價") rfl rfl
    unfold handle_message
    dsimp only
    rw [if_neg h1.1, if_neg (by rw [h2.2]; exact Bool.false_ne_true),
      if_neg (by rw [h3.2]; exact Bool.false_ne_true), if_neg h4.1, if_pos hdig]
    simp only [get_stock_info, stockInfoLoop, herr, error_bind]

/-- Witness for the amended C4. -/
theorem handler_error_propagation_witness :
    (∃ v, handle_message provErr 0 ["2330"] "清單" = .ok v)
    ∧ handle_message provErr 0 ["2330"] "2330" = .error "ConnectionError" := by
  constructor
  · exact handler_error_propagation.1 String provErr 0 ["2330"] "清單"
      (by decide) (by rfl)
  · exact handler_error_propagation.2 String provErr "ConnectionError" 0 ["2330"] "2330"
      (by rfl) (by rfl)

/-! ### Claim C5 -/

/-- Counterexample to C5: the seed watchlist written at startup is a
reachable state and is not in ascending order (`2330` precedes `2317` and
`2010` is last), and the list command reproduces that unsorted order. -/
theorem list_unsorted_seed_counterexample :
    handle_message provEmptyU 0 initialTickers "清單" =
      .ok (initialTickers,
        "📋 目前追蹤清單：\n0050\n0056\n00878\n00919\n2330\n2317\n2382\n2010")
    ∧ ¬ List.Pairwise pyLe (load_tickers initialTickers) := by
  exact ⟨rfl, by decide⟩

/-- C5 as amended: the list command returns the stored file order
unchanged and without mutating the state (so repeated listing is
byte-for-byte stable), and every state written by `save_tickers` — i.e.
any state after a mutating command — is in ascending order; only the
unsaved seed state may be unsorted. -/
theorem list_stable_and_sorted_after_save :
    (∀ (ε : Type) (P : Provider ε) (today : Int) (st : List String),
      handle_message P today st "清單" = .ok (st, listReply (load_tickers st)))
    ∧ (∀ ts : List String, List.Pairwise pyLe (save_tickers ts)) := by
  constructor
  · intro ε P today st
    rfl
  · intro ts
    exact save_tickers_sorted ts

/-! ### Claim C6 -/

/-- Counterexample to C6: `abc!` fails the numeric-or-numeric+suffix ticker
grammar, yet its resolution is determined by the provider's answer for
`abc!.TW` — a quote when the provider has a record, the no-data line when
it does not.  The provider is therefore reached, and no `InvalidTicker`
fail-fast outcome exists. -/
theorem malformed_ticker_reaches_provider_counterexample :
    get_stock_info provMal 0 "abc!" = .ok "abc! \n收盤價：105（2025-10-09）"
    ∧ get_stock_info provEmptyU 0 "abc!" = .ok (notFoundLine "abc!.TW")
    ∧ ("abc! \n收盤價：105（2025-10-09）" : String) ≠ notFoundLine "abc!.TW" := by
  exact ⟨rfl, rfl, by decide⟩

/-- C6 as amended: quote resolution performs no grammar check — any ticker
string whatsoever, malformed or not, has its `.TW`-suffixed form queried
against the provider over the whole 5-day window, and an empty window
yields the no-data reply rather than any up-front rejection. -/
theorem no_grammar_gate {ε : Type} (P : Provider ε) (today : Int)
    (c : String)
    (hEmpty : ∀ i : Nat, i < 5 → P.price (twCode c) (today - i) = .ok []) :
    get_stock_info P today c = .ok (notFoundLine (twCode c)) := by
  unfold get_stock_info
  exact stockInfoLoop_exhaust P (twCode c) 5 today hEmpty

/-- Witness for the amended C6 at the malformed ticker `abc!`. -/
theorem no_grammar_gate_witness :
    get_stock_info provEmptyU 0 "abc!" =
      .ok (notFoundLine (twCode "abc!")) :=
  no_grammar_gate provEmptyU 0 "abc!" (by intro i hi; interval_cases i <;> rfl)

/-! ### Claim C7 -/

/-- Shared helper: the untrack branch on an absent code replies with the
not-in-list line and leaves the file untouched. -/
theorem untrack_absent {ε : Type} (P : Provider ε) (today : Int)
    (st : List String) (msg t : String)
    (hsw : pyStartsWith (pyStrip msg) "刪除" = true)
    (hcode : pyStrip (pyReplace (pyStrip msg) "刪除" "") = t)
    (habs : t ∉ load_tickers st) :
    handle_message P today st msg = .ok (st, t ++ " 不在清單中") := by
  obtain ⟨tl, hhead⟩ := @pyStartsWith_head _ "刪除" '刪' ['除'] rfl hsw
  have h1 := head_ne_cases hhead (s := "清單") rfl (by decide)
  have h2 := head_ne_cases hhead (s := "追蹤") rfl (by decide)
  unfold handle_message
  dsimp only
  rw [if_neg h1.1, if_neg (by rw [h2.2]; exact Bool.false_ne_true), if_pos hsw,
    hcode, if_neg habs]
  rfl

/-- Shared helper: the untrack branch on a present code removes it, saves,
and reports the removal. -/
theorem untrack_present {ε : Type} (P : Provider ε) (today : Int)
    (st : List String) (msg t : String)
    (hsw : pyStartsWith (pyStrip msg) "刪除" = true)
    (hcode : pyStrip (pyReplace (pyStrip msg) "刪除" "") = t)
    (hmem : t ∈ load_tickers st) :
    handle_message P today st msg =
      .ok (save_tickers ((load_tickers st).erase t), "🗑️ 已刪除 " ++ t ++ " 從追蹤清單") := by
  obtain ⟨tl, hhead⟩ := @pyStartsWith_head _ "刪除" '刪' ['除'] rfl hsw
  have h1 := head_ne_cases hhead (s := "清單") rfl (by decide)
  have h2 := head_ne_cases hhead (s := "追蹤") rfl (by decide)
  unfold handle_message
  dsimp only
  rw [if_neg h1.1, if_neg (by rw [h2.2]; exact Bool.false_ne_true), if_pos hsw,
    hcode, if_pos hmem]
  rfl

/-- C7: removing an absent ticker is a no-op that replies with the
not-in-list line and never raises; in particular after removing a present
ticker (from a duplicate-free state, which every reachable state is), a
second removal of the same ticker replies not-in-list and changes
nothing. -/
theorem remove_missing_noop {ε : Type} (P : Provider ε) (today : Int)
    (st : List String) (msg t : String)
    (hsw : pyStartsWith (pyStrip msg) "刪除" = true)
    (hcode : pyStrip (pyReplace (pyStrip msg) "刪除" "") = t) :
    (t ∉ load_tickers st →
      handle_message P today st msg = .ok (st, t ++ " 不在清單中"))
    ∧ (t ∈ load_tickers st → (load_tickers st).Nodup →
      ∀ st1 r1, handle_message P today st msg = .ok (st1, r1) →
        handle_message P today st1 msg = .ok (st1, t ++ " 不在清單中")) := by
  constructor
  · exact untrack_absent P today st msg t hsw hcode
  · intro hmem hnd st1 r1 hres
    rw [untrack_present P today st msg t hsw hcode hmem] at hres
    obtain ⟨rfl, -⟩ : st1 = save_tickers ((load_tickers st).erase t) ∧ _ := by
      have := Except.ok.inj hres
      exact ⟨congrArg Prod.fst this.symm, trivial⟩
    apply untrack_absent P today _ msg t hsw hcode
    have hgoodX : ∀ x ∈ (load_tickers st).erase t, goodEntry x := by
      intro x hx
      exact load_tickers_good (List.erase_subset t (load_tickers st) hx)
    rw [load_save_roundtrip hgoodX, mem_save_tickers]
    exact hnd.not_mem_erase

/-- Witness for C7: removing `9999` (absent) is a no-op reply, and after
removing `2330` a second removal replies not-in-list. -/
theorem remove_missing_noop_witness :
    handle_message provEmptyU 0 ["2330"] "刪除 9999" =
      .ok (["2330"], "9999 不在清單中")
    ∧ handle_message provEmptyU 0 [] "刪除 2330" =
      .ok ([], "2330 不在清單中") := by
  constructor
  · exact (remove_missing_noop provEmptyU 0 ["2330"] "刪除 9999" "9999" rfl rfl).1
      (by decide)
  · exact (remove_missing_noop provEmptyU 0 ["2330"] "刪除 2330" "2330" rfl rfl).2
      (by decide) (by decide) [] "🗑️ 已刪除 2330 從追蹤清單" rfl

/-! ### Claim C8 -/

theorem exceptEmpty_eq_ok {α : Type} (x : Except Empty α) : x = .ok (ofPure x) := by
  cases x with
  | ok a => rfl
  | error e => exact e.elim

theorem mapInfo_pure (f : String → Int → List PriceRecord)
    (g : String → List InfoRecord) (today : Int) :
    ∀ l : List String, mapInfo (pureProv f g) today l =
      .ok (l.map fun c => ofPure (get_stock_info (pureProv f g) today c))
  | [] => rfl
  | c :: cs => by
    simp only [mapInfo, List.map_cons]
    rw [exceptEmpty_eq_ok (get_stock_info (pureProv f g) today c), ok_bind,
      mapInfo_pure f g today cs, ok_bind]
    rfl

/-- C8: with a provider that raises no exception, the batch quote command
loads the watchlist, resolves every listed ticker in list order, and joins
the individual blocks with a blank line; a ticker with no data anywhere in
its window contributes its own no-data line instead of aborting the
batch. -/
theorem quote_all_order_partial_failure
    (f : String → Int → List PriceRecord) (g : String → List InfoRecord)
    (today : Int) (st : List String) :
    (handle_message (pureProv f g) today st "股價" =
      .ok (st, String.intercalate "\n\n"
        ((load_tickers st).map fun c =>
          ofPure (get_stock_info (pureProv f g) today c))))
    ∧ (∀ c : String, (∀ i : Nat, i < 5 → f (twCode c) (today - i) = []) →
        ofPure (get_stock_info (pureProv f g) today c) = notFoundLine (twCode c)) := by
  constructor
  · unfold handle_message
    dsimp only
    rw [if_neg (by decide), if_neg (by decide), if_neg (by decide),
      if_pos (show pyStrip "股價" = "股價" from rfl)]
    unfold get_stock_prices
    rw [mapInfo_pure, ok_bind]
    rfl
  · intro c hEmpty
    have h : get_stock_info (pureProv f g) today c = .ok (notFoundLine (twCode c)) := by
      unfold get_stock_info
      apply stockInfoLoop_exhaust
      intro i hi
      show Except.ok (f (twCode c) (today - i)) = Except.ok []
      rw [hEmpty i hi]
    rw [h]
    rfl

/-- Witness for C8: a two-ticker watchlist where only `2330` has data; the
batch reply contains the `2330` quote block and the `9999` no-data line, in
list order, joined by a blank line. -/
theorem quote_all_order_partial_failure_witness :
    handle_message (pureProv sampleF sampleG) 0 ["2330", "9999"] "股價" =
      .ok (["2330", "9999"],
        "2330 台積電\n收盤價：105（2025-10-09）\n\n9999 無法取得資料（可能代碼錯誤或近期無交易）")
    ∧ ofPure (get_stock_info (pureProv sampleF sampleG) 0 "9999") =
        notFoundLine (twCode "9999") := by
  constructor
  · exact (quote_all_order_partial_failure sampleF sampleG 0 ["2330", "9999"]).1.trans
      (by rfl)
  · exact (quote_all_order_partial_failure sampleF sampleG 0 ["2330", "9999"]).2 "9999"
      (by intro i hi; interval_cases i <;> rfl)

/-! ### Claim C9 -/

theorem empty_append_str (s : String) : "" ++ s = s := by
  apply string_data_inj
  rw [String.data_append]
  rfl

theorem empty_not_mem_load (st : List String) : "" ∉ load_tickers st :=
  fun h => (load_tickers_good h).2 rfl

/-- Counterexample to C9: the bare untrack keyword (empty remainder) does
not produce a usage hint — it replies with the not-in-list line (for the
empty code), unlike the track keyword's usage hint and unlike the help
text. -/
theorem untrack_empty_no_usage_hint_counterexample :
    handle_message provEmptyU 0 ["2330"] "刪除" = .ok (["2330"], " 不在清單中")
    ∧ (" 不在清單中" : String) ≠ "請輸入格式：追蹤 [代碼]"
    ∧ (" 不在清單中" : String) ≠ helpText := by
  exact ⟨rfl, by decide, by decide⟩

/-- C9 as amended: a track keyword with empty remainder replies with the
usage hint, and an untrack keyword with empty remainder replies with the
not-in-list line; in both cases the stored watchlist is untouched (no save
is performed). -/
theorem empty_remainder_no_store_write :
    (∀ (ε : Type) (P : Provider ε) (today : Int) (st : List String)
       (msg : String), pyStartsWith (pyStrip msg) "追蹤" = true →
       pyStrip (pyReplace (pyStrip msg) "追蹤" "") = "" →
       handle_message P today st msg = .ok (st, "請輸入格式：追蹤 [代碼]"))
    ∧ (∀ (ε : Type) (P : Provider ε) (today : Int) (st : List String)
       (msg : String), pyStartsWith (pyStrip msg) "刪除" = true →
       pyStrip (pyReplace (pyStrip msg) "刪除" "") = "" →
       handle_message P today st msg = .ok (st, " 不在清單中")) := by
  constructor
  · intro ε P today st msg hsw hcode
    obtain ⟨tl, hhead⟩ := @pyStartsWith_head _ "追蹤" '追' ['蹤'] rfl hsw
    have h1 := head_ne_cases hhead (s := "清單") rfl (by decide)
    unfold handle_message
    dsimp only
    rw [if_neg h1.1, if_pos hsw, hcode, if_neg (by simp)]
    rfl
  · intro ε P today st msg hsw hcode
    have h := untrack_absent P today st msg "" hsw hcode (empty_not_mem_load st)
    rwa [empty_append_str] at h

/-- Witness for the amended C9. -/
theorem empty_remainder_no_store_write_witness :
    handle_message provEmptyU 0 ["2330"] "追蹤" =
      .ok (["2330"], "請輸入格式：追蹤 [代碼]")
    ∧ handle_message provEmptyU 0 ["2330"] "刪除 " =
      .ok (["2330"], " 不在清單中") := by
  constructor
  · exact empty_remainder_no_store_write.1 Unit provEmptyU 0 ["2330"] "追蹤" rfl rfl
  · exact empty_remainder_no_store_write.2 Unit provEmptyU 0 ["2330"] "刪除 " rfl rfl

/-! ### Claim C10 -/

theorem save_tickers_strict_sorted {ts : List String}
    (hts : ∀ x ∈ ts, x ≠ "") :
    List.Pairwise (fun a b => pyLe a b ∧ a ≠ b) (save_tickers ts)
    ∧ ∀ x ∈ save_tickers ts, x ≠ "" := by
  refine ⟨?_, fun x hx => hts x (mem_save_tickers.mp hx)⟩
  exact (save_tickers_sorted ts).and (save_tickers_nodup ts)

/-- C10: every state the message handler persists is either the untouched
input state, or a `save_tickers` image: strictly ascending (hence
duplicate-free) with no blank entries — regardless of the prior file
contents. -/
theorem handler_state_invariant {ε : Type} (P : Provider ε) (today : Int)
    (st : List String) (msg : String) (st' : List String) (r : String)
    (hres : handle_message P today st msg = .ok (st', r)) :
    st' = st ∨ (List.Pairwise (fun a b => pyLe a b ∧ a ≠ b) st'
                ∧ ∀ x ∈ st', x ≠ "") := by
  unfold handle_message at hres
  dsimp only at hres
  split at hres
  · left
    exact (congrArg Prod.fst (Except.ok.inj hres)).symm
  · split at hres
    · split at hres
      · rename_i hcode
        right
        have h := Except.ok.inj hres
        injection h with h1 h2
        subst h1
        apply save_tickers_strict_sorted
        intro x hx
        rcases List.mem_append.mp hx with hm | hm
        · exact (load_tickers_good hm).2
        · rw [List.mem_singleton.mp hm]
          exact hcode
      · left
        exact (congrArg Prod.fst (Except.ok.inj hres)).symm
    · split at hres
      · split at hres
        · right
          have h := Except.ok.inj hres
          injection h with h1 h2
          subst h1
          apply save_tickers_strict_sorted
          intro x hx
          have hsub := List.erase_subset _ _ hx
          exact (load_tickers_good hsub).2
        · left
          exact (congrArg Prod.fst (Except.ok.inj hres)).symm
      · split at hres
        · cases hx : get_stock_prices P today st with
          | ok v =>
            rw [hx, ok_bind] at hres
            left
            exact (congrArg Prod.fst (Except.ok.inj hres)).symm
          | error e =>
            rw [hx, error_bind] at hres
            exact Except.noConfusion hres
        · split at hres
          · cases hx : get_stock_info P today (pyStrip msg) with
            | ok v =>
              rw [hx, ok_bind] at hres
              left
              exact (congrArg Prod.fst (Except.ok.inj hres)).symm
            | error e =>
              rw [hx, error_bind] at hres
              exact Except.noConfusion hres
          · left
            exact (congrArg Prod.fst (Except.ok.inj hres)).symm

/-- Witness for C10: tracking `2330` over the unsorted two-entry state
yields the sorted, blank-free, duplicate-free saved state. -/
theorem handler_state_invariant_witness :
    (["0050", "0056", "2330"] : List String) = ["0056", "0050"]
    ∨ (List.Pairwise (fun a b => pyLe a b ∧ a ≠ b) ["0050", "0056", "2330"]
       ∧ ∀ x ∈ (["0050", "0056", "2330"] : List String), x ≠ "") :=
  handler_state_invariant provEmptyU 0 ["0056", "0050"] "追蹤 2330"
    ["0050", "0056", "2330"] "✅ 已新增 2330 到追蹤清單" rfl
